import Mathlib

/-!
# Bézier-curve demo (`src/main.cpp`): embedding and verified properties

The program is one C++ file built on raylib.  Its pure helpers become Lean
functions; the pieces of the frame loop in `main` become functions on explicit
state, one per source segment, with the values polled from raylib each frame
collected in `Input`.

Arithmetic: every `float` is modelled as an exact rational (`ℚ`), and a float
literal such as `0.1f` as the decimal it is written as (`1/10`).  Rounding,
overflow, infinities and NaN of IEEE binary32 are outside this model.
-/

namespace Bezier

/-! ## Vector helpers (`src/main.cpp` 42-91) -/

/-- `using vec2 = Vector2;` raylib's pair of floats. -/
structure vec2 where
  x : ℚ
  y : ℚ
deriving DecidableEq

/-- `using rec = Rectangle;` raylib's axis-aligned rectangle. -/
structure Rectangle where
  x : ℚ
  y : ℚ
  width : ℚ
  height : ℚ
deriving DecidableEq

/-- `operator +(vec2 a, vec2 b)`. -/
def vec2_add (a b : vec2) : vec2 := { x := a.x + b.x, y := a.y + b.y }

/-- `operator -(vec2 a, vec2 b)`. -/
def vec2_sub (a b : vec2) : vec2 := { x := a.x - b.x, y := a.y - b.y }

/-- `vec2_scale(v, scale)`. -/
def vec2_scale (v : vec2) (scale : ℚ) : vec2 := { x := v.x * scale, y := v.y * scale }

/-- The radicand of `vec2_length(v) = sqrt(v.x * v.x + v.y * v.y)`.  The source only ever
compares the length with zero, and `sqrt s > 0` exactly when `s > 0`, so the
test `vec2_length(v) > 0` is modelled as `0 < vec2_length_sq v`. -/
def vec2_length_sq (v : vec2) : ℚ := v.x * v.x + v.y * v.y

/-! ## Bézier evaluator (`src/main.cpp` 231-241) -/

/-- What one iteration of the frame loop reads from raylib.  Every polling function
returns the same value throughout a frame, so each is one field. -/
structure Input where
  /-- `IsKeyDown(KEY_SPACE)` -/
  keySpace : Bool
  /-- `IsKeyDown(KEY_W)` -/
  keyW : Bool
  /-- `IsKeyDown(KEY_S)` -/
  keyS : Bool
  /-- `IsKeyDown(KEY_A)` -/
  keyA : Bool
  /-- `IsKeyDown(KEY_D)` -/
  keyD : Bool
  /-- `GetMousePosition()`, in screen coordinates -/
  mousePos : vec2
  /-- `IsMouseButtonDown(MOUSE_RIGHT_BUTTON)` -/
  mouseRightDown : Bool
  /-- `IsMouseButtonDown(MOUSE_LEFT_BUTTON)` -/
  mouseLeftDown : Bool
  /-- `IsMouseButtonReleased(MOUSE_LEFT_BUTTON)` -/
  mouseLeftReleased : Bool
  /-- `GetMouseWheelMove()` -/
  wheel : ℚ
  /-- `GetScreenWidth()` -/
  screenWidth : ℤ
  /-- `GetScreenHeight()` -/
  screenHeight : ℤ
  /-- `GetFrameTime()` -/
  frameTime : ℚ

/-! ## raylib functions the program calls

These belong to the library, not to the repository; they are written down here
from raylib's sources (the 4.x line that still ships `extras/raygui.h`). -/

/-- raylib `CheckCollisionPointRec(point, rec)`: the point lies in the closed rectangle. -/
def CheckCollisionPointRec (p : vec2) (r : Rectangle) : Bool :=
  decide (r.x ≤ p.x) && decide (p.x ≤ r.x + r.width) &&
    decide (r.y ≤ p.y) && decide (p.y ≤ r.y + r.height)

/-- raylib `CheckCollisionPointCircle(point, center, radius)`: the distance from
`point` to `center` is at most `radius`; compared through the squares, as the
distance is a square root. -/
def CheckCollisionPointCircle (p center : vec2) (radius : ℚ) : Bool :=
  decide (0 ≤ radius) &&
    decide ((center.x - p.x) * (center.x - p.x) + (center.y - p.y) * (center.y - p.y)
      ≤ radius * radius)

/-! ## Edge rectangles (`src/main.cpp` 93-134) -/

/-- `get_rec_x1(rec)`: the bottom strip of `rec`. -/
def get_rec_x1 (r : Rectangle) : Rectangle :=
  let fullArea := r.width * r.height
  let bottomArea := fullArea - (fullArea * (9 / 10))
  let y := r.y + ((fullArea - bottomArea) / r.width)
  { x := r.x, y := y, width := r.width, height := bottomArea / r.width }

/-- `get_rec_x2(rec)`: the top strip of `rec`. -/
def get_rec_x2 (r : Rectangle) : Rectangle :=
  let fullArea := r.width * r.height
  let bottomArea := fullArea - (fullArea * (9 / 10))
  { x := r.x, y := r.y, width := r.width, height := bottomArea / r.width }

/-- `get_rec_y1(rec)`: the right strip of `rec`. -/
def get_rec_y1 (r : Rectangle) : Rectangle :=
  let fullArea := r.width * r.height
  let rightArea := fullArea - (fullArea * (9 / 10))
  let x := r.x + ((fullArea - rightArea) / r.height)
  { x := x, y := r.y, width := rightArea / r.height, height := r.height }

/-- `get_rec_y2(rec)`: the left strip of `rec`. -/
def get_rec_y2 (r : Rectangle) : Rectangle :=
  let fullArea := r.width * r.height
  let leftArea := fullArea * (1 / 10)
  let x := r.x
  let width := leftArea / r.height
  { x := x, y := r.y, width := width, height := r.height }

/-! ## The camera (`src/main.cpp` 150-229) -/

/-- `struct cam2d : Camera2D`: raylib's four camera fields, then the two members the
program adds. -/
structure cam2d where
  offset : vec2
  target : vec2
  rotation : ℚ
  zoom : ℚ
  cameraSpeed : ℚ
  cRec : Rectangle
deriving DecidableEq

/-- The constructor `cam2d()` (line 152) with the member initialiser of line 226.
`cRec` has no initialiser: `cRec0` is whatever the storage holds. -/
def cam2d.ctor (cRec0 : Rectangle) : cam2d :=
  { offset := { x := 0, y := 0 }, target := { x := 0, y := 0 }, rotation := 0, zoom := 1
    cameraSpeed := 2, cRec := cRec0 }

/-- raylib `GetScreenToWorld2D(position, camera)`, the inverse of the camera matrix
`screen = zoom * (world - target) + offset`.  The program never changes
`rotation` from `0`, and the rotation part of the matrix is left out.  With
`zoom = 0` the matrix has no inverse; the value here is then Lean's `x / 0 = 0`
and means nothing. -/
def GetScreenToWorld2D (position : vec2) (camera : cam2d) : vec2 :=
  { x := (position.x - camera.offset.x) / camera.zoom + camera.target.x
    y := (position.y - camera.offset.y) / camera.zoom + camera.target.y }

/-- `cam2d::get_mouse_dir()` (154-181). -/
def cam2d.get_mouse_dir (c : cam2d) (inp : Input) : vec2 :=
  let dir : vec2 := { x := 0, y := 0 }
  let mousePos := inp.mousePos
  let worldMousePos := GetScreenToWorld2D mousePos c
  let mouseRightButton := inp.mouseRightDown
  let dir := if CheckCollisionPointRec worldMousePos (get_rec_y1 c.cRec) && mouseRightButton
    then { dir with x := dir.x + c.cameraSpeed } else dir
  let dir := if CheckCollisionPointRec worldMousePos (get_rec_y2 c.cRec) && mouseRightButton
    then { dir with x := dir.x - c.cameraSpeed } else dir
  let dir := if CheckCollisionPointRec worldMousePos (get_rec_x1 c.cRec) && mouseRightButton
    then { dir with y := dir.y + c.cameraSpeed } else dir
  let dir := if CheckCollisionPointRec worldMousePos (get_rec_x2 c.cRec) && mouseRightButton
    then { dir with y := dir.y - c.cameraSpeed } else dir
  dir

/-- Lines 185-192 of `cam2d::update()`: the camera speed and the keyboard pan. -/
def cam2d.update_keys (c : cam2d) (inp : Input) : cam2d :=
  let c := if inp.keySpace then { c with cameraSpeed := 7 / 2 } else { c with cameraSpeed := 2 }
  let c := if inp.keyW then { c with target := { c.target with y := c.target.y - c.cameraSpeed } }
    else c
  let c := if inp.keyS then { c with target := { c.target with y := c.target.y + c.cameraSpeed } }
    else c
  let c := if inp.keyA then { c with target := { c.target with x := c.target.x - c.cameraSpeed } }
    else c
  let c := if inp.keyD then { c with target := { c.target with x := c.target.x + c.cameraSpeed } }
    else c
  c

/-- Lines 194-206 of `cam2d::update()`: the mouse step.  `mousePos` is
`GetMousePosition()`, the pointer in screen coordinates. -/
def cam2d.update_mouse (c : cam2d) (inp : Input) : cam2d :=
  let mousePos := inp.mousePos
  let mouseRightButton := inp.mouseRightDown
  if 0 < vec2_length_sq (c.get_mouse_dir inp) then
    { c with target := vec2_add c.target (c.get_mouse_dir inp) }
  else if mouseRightButton then
    { c with target := mousePos }
  else c

/-- Lines 208-211 of `cam2d::update()`: the offset follows the target. -/
def cam2d.update_offset (c : cam2d) (inp : Input) : cam2d :=
  let lerpFactor : ℚ := 1 / 10
  let delta := vec2_sub c.target
    (GetScreenToWorld2D { x := (inp.screenWidth : ℚ) / 2, y := (inp.screenHeight : ℚ) / 2 } c)
  { c with offset := vec2_sub c.offset (vec2_scale delta lerpFactor) }

/-- Lines 213-214 of `cam2d::update()`: the mouse wheel. -/
def cam2d.update_zoom (c : cam2d) (inp : Input) : cam2d :=
  let c := if 0 < inp.wheel ∧ c.zoom < 3 then { c with zoom := c.zoom + 1 / 10 } else c
  let c := if inp.wheel < 0 ∧ 0 < c.zoom then { c with zoom := c.zoom - 1 / 10 } else c
  c

/-- Lines 216-220 of `cam2d::update()`: the viewport rectangle.  The four quotients
divide by `zoom`. -/
def cam2d.update_cRec (c : cam2d) (inp : Input) : cam2d :=
  { c with cRec :=
      { x := c.target.x - (c.offset.x / c.zoom)
        y := c.target.y - (c.offset.y / c.zoom)
        width := (inp.screenWidth : ℚ) / c.zoom
        height := (inp.screenHeight : ℚ) / c.zoom } }

/-- `cam2d::update()` (183-221), its five parts in source order. -/
def cam2d.update (c : cam2d) (inp : Input) : cam2d :=
  ((((c.update_keys inp).update_mouse inp).update_offset inp).update_zoom inp).update_cRec inp

/-- The two raylib colours the program gives its points. -/
inductive clr where
  | BLUE
  | GREEN
deriving DecidableEq

/-- `struct point`, its members in declaration order. -/
structure point where
  id : ℤ
  size : ℤ
  pos : vec2
  name : String
  color : clr
deriving DecidableEq

/-- The constructor `point(x_, y_, size_, color_, name_)` (138-139).  It initialises
`pos`, `size`, `color` and `name` and leaves `id` alone: `id0` is whatever the
storage holds. -/
def point.ctor (x_ y_ : ℚ) (size_ : ℤ) (color_ : clr) (name_ : String) (id0 : ℤ) : point :=
  { id := id0, size := size_, pos := { x := x_, y := y_ }, name := name_, color := color_ }

/-- The locals of `main` that the frame loop carries from one frame to the next. -/
structure Scene where
  ball : point
  p0 : point
  p1 : point
  p2 : point
  p3 : point
  t : ℚ
  cam : cam2d
  isDragging : Bool
  lockId : ℤ
  timer : ℚ
  isBallPause : Bool
  forward : Bool
  manualMode : Bool

/-- `points[]` (line 307): the four control points in array order. -/
def Scene.points (s : Scene) : List point := [s.p0, s.p1, s.p2, s.p3]

/-- The state on entry to the frame loop (300-330, 375, 377): the points are built
by `point.ctor`, then line 375 gives the control points the ids `0..3`.
`ballId` and `cRec0` stand for the two members no initialiser writes. -/
def Scene.init (ballId : ℤ) (cRec0 : Rectangle) : Scene :=
  { ball := point.ctor (100 * (3 / 2)) (200 * 2) 20 clr.BLUE "Ball" ballId
    p0 := { point.ctor (100 * (3 / 2)) (200 * 2) 20 clr.GREEN "p0" 0 with id := 0 }
    p1 := { point.ctor (80 * (3 / 2)) (100 * 2) 20 clr.GREEN "p1" 0 with id := 1 }
    p2 := { point.ctor (320 * (3 / 2)) (100 * 2) 20 clr.GREEN "p2" 0 with id := 2 }
    p3 := { point.ctor (300 * (3 / 2)) (200 * 2) 20 clr.GREEN "p3" 0 with id := 3 }
    t := 0
    cam := cam2d.ctor cRec0
    isDragging := false
    lockId := 0
    timer := 0
    isBallPause := false
    forward := true
    manualMode := false }

/-! ## The animation step (`src/main.cpp` 387-422) -/

/-- Line 387: `deltaTime = 0.3f * GetFrameTime()`. -/
def deltaTime (inp : Input) : ℚ := 3 / 10 * inp.frameTime

/-- Lines 392-422 of `main`: one frame of the ping-pong sweep of `t`. -/
def Scene.animation_step (s : Scene) (deltaTime : ℚ) : Scene :=
  if !s.isBallPause && !s.manualMode then
    if s.forward then
      if s.t < 1 then { s with t := s.t + deltaTime }
      else { s with t := 1, forward := false }
    else
      if 0 < s.t ∧ !s.isBallPause then { s with t := s.t - deltaTime }
      else { s with t := 0, forward := true }
  else s

/-- The state after `n` frames of the animation step alone, each with the same
`deltaTime`. -/
def Scene.animate (s : Scene) (deltaTime : ℚ) : ℕ → Scene
  | 0 => s
  | n + 1 => (s.animate deltaTime n).animation_step deltaTime

/-! ## The drag pass (`src/main.cpp` 551-574) -/

/-- The two locals the drag pass reads and writes. -/
structure DragState where
  isDragging : Bool
  lockId : ℤ
deriving DecidableEq

/-- What the drag pass has done so far in a frame: `locked` lists the ids
assigned to `lockId` by line 557, `printed` the lines written by 571-572, one
for each position overwritten by line 569 (the point's name and new position). -/
structure DragLog where
  locked : List ℤ
  printed : List (String × vec2)

/-- The state of the loop of lines 551-574 between two iterations. -/
structure DragLoop where
  st : DragState
  points : List point
  log : DragLog

/-- One iteration of the loop of lines 551-574, for the point `p`. -/
def drag_point (worldMousePos : vec2) (inp : Input) (l : DragLoop) (p : point) : DragLoop :=
  let circleRadius : ℚ := if l.st.isDragging then (p.size : ℚ) * 3 else (p.size : ℚ)
  let l : DragLoop :=
    if CheckCollisionPointCircle worldMousePos p.pos circleRadius &&
        inp.mouseLeftDown && !l.st.isDragging then
      { l with st := { isDragging := true, lockId := p.id }
               log := { l.log with locked := l.log.locked ++ [p.id] } }
    else if inp.mouseLeftReleased then
      { l with st := { isDragging := false, lockId := -1 } }
    else l
  if l.st.isDragging ∧ p.id = l.st.lockId then
    { l with points := l.points ++ [{ p with pos := worldMousePos }]
             log := { l.log with printed := l.log.printed ++ [(p.name, worldMousePos)] } }
  else
    { l with points := l.points ++ [p] }

/-- The loop of lines 551-574 over `ps`, in order. -/
def drag_loop (worldMousePos : vec2) (inp : Input) (st : DragState) (ps : List point) :
    DragLoop :=
  ps.foldl (drag_point worldMousePos inp) { st := st, points := [], log := { locked := [], printed := [] } }

/-- Lines 551-574 of `main`: the drag pass of one frame over `points[]`, with the
drag log of the frame. -/
def Scene.drag_pass (s : Scene) (worldMousePos : vec2) (inp : Input) : Scene × DragLog :=
  let r := drag_loop worldMousePos inp { isDragging := s.isDragging, lockId := s.lockId } s.points
  ({ s with
      p0 := r.points.getD 0 s.p0
      p1 := r.points.getD 1 s.p1
      p2 := r.points.getD 2 s.p2
      p3 := r.points.getD 3 s.p3
      isDragging := r.st.isDragging
      lockId := r.st.lockId }, r.log)

/-- The drag passes of several frames in a row, each frame given by its pointer
position in world coordinates and its polled input. -/
def Scene.drag_frames (s : Scene) (frames : List (vec2 × Input)) : Scene :=
  frames.foldl (fun s f => (s.drag_pass f.1 f.2).1) s

/-! ## The reset buttons (`src/main.cpp` 631-666) -/

/-- Lines 638-666 of `main`.  The three flags are what `gui_draw_button` returned for
RESET BALL, RESET POINTS and RESET CAMERA.  Lines 650-653 assign freshly
constructed points, so the ids of `p0..p3` become whatever the temporaries
held: `ids`.  `posP0` (line 311) is a reference to `p0.pos` and is read
after the points were reset. -/
def Scene.reset_actions (s : Scene) (inp : Input)
    (isResetBall isResetPoints isResetCamera : Bool) (ids : ℤ × ℤ × ℤ × ℤ) : Scene :=
  let s := if isResetBall then { s with ball := { s.ball with pos := s.p0.pos }, t := 0 } else s
  let s := if isResetPoints then
      { s with
          p0 := point.ctor (100 * (3 / 2)) (200 * 2) 20 clr.GREEN "p0" ids.1
          p1 := point.ctor (80 * (3 / 2)) (100 * 2) 20 clr.GREEN "p1" ids.2.1
          p2 := point.ctor (320 * (3 / 2)) (100 * 2) 20 clr.GREEN "p2" ids.2.2.1
          p3 := point.ctor (300 * (3 / 2)) (200 * 2) 20 clr.GREEN "p3" ids.2.2.2 }
    else s
  let s := if isResetCamera then
      { s with cam :=
          { s.cam with
              zoom := 1
              target := s.p0.pos
              offset := { x := (inp.screenWidth : ℚ) / 2, y := (inp.screenHeight : ℚ) / 2 } } }
    else s
  s

/-! ## The cubic in Bernstein form -/

/-- A frame with nothing pressed, the pointer at the screen origin, the window at
its initial 940 x 720 (lines 293-294), and a frame time of 1/50 s. -/
def Input.idle : Input :=
  { keySpace := false, keyW := false, keyS := false, keyA := false, keyD := false
    mousePos := { x := 0, y := 0 }, mouseRightDown := false, mouseLeftDown := false
    mouseLeftReleased := false, wheel := 0, screenWidth := 940, screenHeight := 720
    frameTime := 1 / 50 }

/-- An idle frame in which the primary button is held down. -/
def Input.leftDown : Input := { Input.idle with mouseLeftDown := true }

/-- An idle frame in which the primary button has just been released. -/
def Input.leftReleased : Input := { Input.idle with mouseLeftReleased := true }

/-- The initial scene after `p1` has been dragged next to `p0`: the two hit circles
of radius 20 overlap, and the world point `(155, 400)` lies in both. -/
def Scene.overlap : Scene :=
  { Scene.init 0 ⟨0, 0, 0, 0⟩ with
    p1 := { (Scene.init 0 ⟨0, 0, 0, 0⟩).p1 with pos := { x := 160, y := 400 } } }

/-- An idle frame in which the secondary button is held with the pointer at the
centre of the 940 x 720 window. -/
def Input.rightDownCentre : Input :=
  { Input.idle with mousePos := { x := 470, y := 360 }, mouseRightDown := true }

/-- The camera one idle frame after its construction: `offset = (47, 36)`,
`target = (0, 0)`, `zoom = 1`, `cRec = (-47, -36, 940, 720)`. -/
def cam2d.afterIdleFrame : cam2d := (cam2d.ctor ⟨0, 0, 0, 0⟩).update Input.idle

/-! ## Theorems -/

/-- While `t` stays below `1` on the way up, `n` frames add `n * deltaTime`. -/
theorem animate_rising (s : Scene) (dt : ℚ) (hdt : 0 ≤ dt) (hp : s.isBallPause = false)
    (hm : s.manualMode = false) (hf : s.forward = true) (n : ℕ)
    (h : s.t + n * dt < 1 + dt) :
    s.animate dt n = { s with t := s.t + n * dt } := by
  induction n with
  | zero => simp [Scene.animate]
  | succ n ih =>
    push_cast at h
    have h1 : s.t + n * dt < 1 := by linarith
    have h2 : s.t + n * dt < 1 + dt := by linarith
    rw [Scene.animate, ih h2]
    simp only [Scene.animation_step, hp, hm, hf, h1]
    simp only [Bool.not_false, Bool.and_self, if_true]
    congr 1
    push_cast
    ring

/-- While `t` stays above `0` on the way down, `n` frames take off `n * deltaTime`. -/
theorem animate_falling (s : Scene) (dt : ℚ) (hdt : 0 ≤ dt) (hp : s.isBallPause = false)
    (hm : s.manualMode = false) (hf : s.forward = false) (n : ℕ)
    (h : -dt < s.t - n * dt) :
    s.animate dt n = { s with t := s.t - n * dt } := by
  induction n with
  | zero => simp [Scene.animate]
  | succ n ih =>
    push_cast at h
    have h1 : 0 < s.t - n * dt := by linarith
    have h2 : -dt < s.t - n * dt := by linarith
    rw [Scene.animate, ih h2]
    simp only [Scene.animation_step, hp, hm, hf, h1]
    simp only [Bool.not_false, Bool.and_self, if_true, and_self]
    simp only [Bool.false_eq_true, if_false]
    congr 1
    push_cast
    ring

/-- Frames of the animation step compose. -/
theorem animate_add (s : Scene) (dt : ℚ) (m n : ℕ) :
    s.animate dt (m + n) = (s.animate dt m).animate dt n := by
  induction n with
  | zero => rfl
  | succ n ih => rw [← Nat.add_assoc, Scene.animate, ih, Scene.animate]

/-- C3 (the code overshoots): at 50 frames per second `deltaTime` is
`0.3 * 0.02 = 0.006`; from the initial state the 167th frame leaves `t = 1.002`,
above `1`, with the direction still forward, and only the 168th frame puts `t`
back to `1` and flips the direction.  On the way down the 335th frame leaves
`t = -0.002`, below `0`, and the 336th puts it back to `0` and flips again. -/
theorem animation_overshoot (ballId : ℤ) (cRec0 : Rectangle) :
    deltaTime Input.idle = 3 / 500 ∧
    ((Scene.init ballId cRec0).animate (3 / 500) 167).t = 501 / 500 ∧
    ((Scene.init ballId cRec0).animate (3 / 500) 167).forward = true ∧
    ((Scene.init ballId cRec0).animate (3 / 500) 168).t = 1 ∧
    ((Scene.init ballId cRec0).animate (3 / 500) 168).forward = false ∧
    ((Scene.init ballId cRec0).animate (3 / 500) 335).t = -1 / 500 ∧
    ((Scene.init ballId cRec0).animate (3 / 500) 335).forward = false ∧
    ((Scene.init ballId cRec0).animate (3 / 500) 336).t = 0 ∧
    ((Scene.init ballId cRec0).animate (3 / 500) 336).forward = true := by
  have h := animate_rising (Scene.init ballId cRec0) (3 / 500) (by norm_num) rfl rfl rfl 167
    (by norm_num [Scene.init])
  have h168 : (Scene.init ballId cRec0).animate (3 / 500) 168 =
      { Scene.init ballId cRec0 with t := 1, forward := false } := by
    rw [Scene.animate, h]; norm_num [Scene.animation_step, Scene.init]
  have h335 : (Scene.init ballId cRec0).animate (3 / 500) 335 =
      { Scene.init ballId cRec0 with t := -1 / 500, forward := false } := by
    rw [show 335 = 168 + 167 from rfl, animate_add, h168,
      animate_falling _ (3 / 500) (by norm_num) rfl rfl rfl 167 (by norm_num)]
    norm_num
  refine ⟨by norm_num [deltaTime, Input.idle], ?_, ?_, ?_, ?_, ?_, ?_, ?_, ?_⟩
  · rw [h]; norm_num [Scene.init]
  · rw [h]; rfl
  · rw [h168]
  · rw [h168]
  · rw [h335]
  · rw [h335]
  · rw [Scene.animate, h335]; norm_num [Scene.animation_step, Scene.init]
  · rw [Scene.animate, h335]; norm_num [Scene.animation_step, Scene.init]

/-! ### The zoom -/

/-- While a drag is on and the button is not released, an iteration changes neither
`isDragging` nor `lockId`, and moves the point exactly when it has the locked id. -/
theorem drag_point_dragging (w : vec2) (inp : Input) (l : DragLoop) (p : point)
    (hrel : inp.mouseLeftReleased = false) (hd : l.st.isDragging = true) :
    drag_point w inp l p =
      if p.id = l.st.lockId then
        { l with points := l.points ++ [{ p with pos := w }]
                 log := { l.log with printed := l.log.printed ++ [(p.name, w)] } }
      else { l with points := l.points ++ [p] } := by
  simp [drag_point, hrel, hd]

/-- The loop of a frame that starts with a drag on and no release. -/
theorem fold_dragging (w : vec2) (inp : Input) (hrel : inp.mouseLeftReleased = false)
    (ps : List point) (l : DragLoop) (hd : l.st.isDragging = true) :
    (ps.foldl (drag_point w inp) l).st = l.st ∧
    (ps.foldl (drag_point w inp) l).log.locked = l.log.locked ∧
    (ps.foldl (drag_point w inp) l).points =
      l.points ++ ps.map (fun p => if p.id = l.st.lockId then { p with pos := w } else p) ∧
    (ps.foldl (drag_point w inp) l).log.printed.length =
      l.log.printed.length + ps.countP (fun p => decide (p.id = l.st.lockId)) := by
  induction ps generalizing l with
  | nil => simp
  | cons p ps ih =>
    rw [List.foldl_cons, drag_point_dragging w inp l p hrel hd]
    by_cases hp : p.id = l.st.lockId
    · rw [if_pos hp]
      obtain ⟨h1, h2, h3, h4⟩ := ih
        { l with points := l.points ++ [{ p with pos := w }]
                 log := { l.log with printed := l.log.printed ++ [(p.name, w)] } } hd
      refine ⟨h1, h2, ?_, ?_⟩
      · rw [h3]; simp [hp]
      · rw [h4]; simp [hp]; omega
    · rw [if_neg hp]
      obtain ⟨h1, h2, h3, h4⟩ := ih { l with points := l.points ++ [p] } hd
      refine ⟨h1, h2, ?_, ?_⟩
      · rw [h3]; simp [hp]
      · rw [h4]; simp [hp]

/-- Among points with pairwise distinct ids at most one has a given id. -/
theorem countP_id_le_one (ps : List point) (k : ℤ) (hnd : (ps.map (fun p => p.id)).Nodup) :
    ps.countP (fun p => decide (p.id = k)) ≤ 1 := by
  induction ps with
  | nil => simp
  | cons p ps ih =>
    rw [List.map_cons, List.nodup_cons] at hnd
    by_cases hp : p.id = k
    · have hz : ps.countP (fun q => decide (q.id = k)) = 0 := by
        rw [List.countP_eq_zero]
        intro q hq hqk
        exact hnd.1 (List.mem_map.mpr ⟨q, hq, by rw [hp]; simpa using hqk⟩)
      simp [List.countP_cons, hp, hz]
    · simpa [List.countP_cons, hp] using ih hnd.2

/-- The loop of a frame that starts with no drag on and no release, over points with
pairwise distinct ids: at most one lock, at most one point moved, and the
moved point is the one carrying the id locked at the end. -/
theorem fold_idle (w : vec2) (inp : Input) (hrel : inp.mouseLeftReleased = false)
    (ps : List point) (l : DragLoop) (hd : l.st.isDragging = false)
    (hnd : (ps.map (fun p => p.id)).Nodup) :
    ((ps.foldl (drag_point w inp) l).st.isDragging = true →
      (ps.foldl (drag_point w inp) l).st.lockId ∈ ps.map (fun p => p.id)) ∧
    (ps.foldl (drag_point w inp) l).log.locked.length ≤ l.log.locked.length + 1 ∧
    (ps.foldl (drag_point w inp) l).log.printed.length ≤ l.log.printed.length + 1 ∧
    (ps.foldl (drag_point w inp) l).points =
      l.points ++ ps.map (fun p =>
        if (ps.foldl (drag_point w inp) l).st.isDragging = true ∧
            p.id = (ps.foldl (drag_point w inp) l).st.lockId
        then { p with pos := w } else p) := by
  induction ps generalizing l with
  | nil => simp [hd]
  | cons p ps ih =>
    rw [List.map_cons, List.nodup_cons] at hnd
    rw [List.foldl_cons]
    by_cases hit : (CheckCollisionPointCircle w p.pos (p.size : ℚ) && inp.mouseLeftDown) = true
    · have hstep : drag_point w inp l p =
          { st := { isDragging := true, lockId := p.id }
            points := l.points ++ [{ p with pos := w }]
            log := { locked := l.log.locked ++ [p.id]
                     printed := l.log.printed ++ [(p.name, w)] } } := by
        simp only [Bool.and_eq_true] at hit
        simp [drag_point, hd, hit.1, hit.2]
      rw [hstep]
      obtain ⟨h1, h2, h3, h4⟩ := fold_dragging w inp hrel ps
        { st := { isDragging := true, lockId := p.id }
          points := l.points ++ [{ p with pos := w }]
          log := { locked := l.log.locked ++ [p.id]
                   printed := l.log.printed ++ [(p.name, w)] } } rfl
      have hz : ps.countP (fun q => decide (q.id = p.id)) = 0 := by
        rw [List.countP_eq_zero]
        intro q hq hqk
        exact hnd.1 (List.mem_map.mpr ⟨q, hq, by simpa using hqk⟩)
      refine ⟨fun _ => ?_, ?_, ?_, ?_⟩
      · rw [h1]; simp
      · rw [h2]; simp
      · rw [h4]; simp [hz]
      · rw [h3, h1]; simp
    · have hstep : drag_point w inp l p = { l with points := l.points ++ [p] } := by
        simp only [Bool.and_eq_true, not_and_or] at hit
        rcases hit with hit | hit <;> simp [drag_point, hd, hrel, hit]
      rw [hstep]
      obtain ⟨h1, h2, h3, h4⟩ := ih { l with points := l.points ++ [p] } hd hnd.2
      refine ⟨fun h => List.mem_cons_of_mem _ (h1 h), h2, h3, ?_⟩
      rw [h4]
      have hp : ¬ ((ps.foldl (drag_point w inp) { l with points := l.points ++ [p] }).st.isDragging
            = true ∧
          p.id = (ps.foldl (drag_point w inp) { l with points := l.points ++ [p] }).st.lockId) := by
        rintro ⟨ha, hb⟩
        exact hnd.1 (hb ▸ h1 ha)
      simp [hp]

/-- A drag pass without a release keeps a running drag and its locked id. -/
theorem drag_pass_keeps_lock (s : Scene) (w : vec2) (inp : Input)
    (hrel : inp.mouseLeftReleased = false) (hd : s.isDragging = true) :
    (s.drag_pass w inp).1.isDragging = true ∧ (s.drag_pass w inp).1.lockId = s.lockId := by
  obtain ⟨h1, -, -, -⟩ := fold_dragging w inp hrel s.points
    { st := { isDragging := s.isDragging, lockId := s.lockId }, points := []
      log := { locked := [], printed := [] } } hd
  have h2 : (s.drag_pass w inp).1.isDragging = s.isDragging :=
    congrArg DragState.isDragging h1
  have h3 : (s.drag_pass w inp).1.lockId = s.lockId := congrArg DragState.lockId h1
  exact ⟨h2.trans hd, h3⟩

/-- Drag passes without a release, any number of them, keep a running drag and its
locked id. -/
theorem drag_frames_keeps_lock (frames : List (vec2 × Input)) (s : Scene)
    (hrel : ∀ f ∈ frames, f.2.mouseLeftReleased = false) (hd : s.isDragging = true) :
    (s.drag_frames frames).isDragging = true ∧ (s.drag_frames frames).lockId = s.lockId := by
  induction frames generalizing s with
  | nil => exact ⟨hd, rfl⟩
  | cons f fs ih =>
    obtain ⟨h1, h2⟩ := drag_pass_keeps_lock s f.1 f.2 (hrel f (List.mem_cons_self _ _)) hd
    have h := ih (s.drag_pass f.1 f.2).1 (fun g hg => hrel g (List.mem_cons_of_mem _ hg)) h1
    have hstep : s.drag_frames (f :: fs) = (s.drag_pass f.1 f.2).1.drag_frames fs := by
      simp [Scene.drag_frames]
    rw [hstep]
    exact ⟨h.1, h.2.trans h2⟩

/-- The loop of one frame without a release, from any drag state, over points with
pairwise distinct ids. -/
theorem drag_loop_exclusive (w : vec2) (inp : Input) (hrel : inp.mouseLeftReleased = false)
    (st : DragState) (ps : List point) (hnd : (ps.map (fun p => p.id)).Nodup) :
    (drag_loop w inp st ps).log.locked.length ≤ 1 ∧
    (drag_loop w inp st ps).log.printed.length ≤ 1 ∧
    (drag_loop w inp st ps).points =
      ps.map (fun p =>
        if (drag_loop w inp st ps).st.isDragging = true ∧
            p.id = (drag_loop w inp st ps).st.lockId
        then { p with pos := w } else p) := by
  cases hd : st.isDragging with
  | true =>
    obtain ⟨h1, h2, h3, h4⟩ := fold_dragging w inp hrel ps
      { st := st, points := [], log := { locked := [], printed := [] } } hd
    have hc := countP_id_le_one ps st.lockId hnd
    simp only [drag_loop, h1, h2, h3, h4, hd]
    exact ⟨by simp, by simpa using hc, by simp⟩
  | false =>
    obtain ⟨-, h2, h3, h4⟩ := fold_idle w inp hrel ps
      { st := st, points := [], log := { locked := [], printed := [] } } hd hnd
    simp only [drag_loop]
    exact ⟨by simpa using h2, by simpa using h3, by simpa using h4⟩

/-- C6: in a frame with the primary button down and not released, for every pointer
position and every prior drag state, the drag pass over the four control
points (ids 0..3) assigns `lockId` at most once and overwrites at most one
position, namely that of the point whose id is locked after the pass; a lock
that is on stays on with the same id through this frame and through every
later run of frames in which the button stays down and is not released. -/
theorem drag_lock_exclusive (s : Scene) (w : vec2) (inp : Input)
    (hids : s.p0.id = 0 ∧ s.p1.id = 1 ∧ s.p2.id = 2 ∧ s.p3.id = 3)
    (_hdown : inp.mouseLeftDown = true) (hrel : inp.mouseLeftReleased = false) :
    (s.drag_pass w inp).2.locked.length ≤ 1 ∧
    (s.drag_pass w inp).2.printed.length ≤ 1 ∧
    ((s.drag_pass w inp).1.p0 =
      if (s.drag_pass w inp).1.isDragging = true ∧ (s.drag_pass w inp).1.lockId = 0
      then { s.p0 with pos := w } else s.p0) ∧
    ((s.drag_pass w inp).1.p1 =
      if (s.drag_pass w inp).1.isDragging = true ∧ (s.drag_pass w inp).1.lockId = 1
      then { s.p1 with pos := w } else s.p1) ∧
    ((s.drag_pass w inp).1.p2 =
      if (s.drag_pass w inp).1.isDragging = true ∧ (s.drag_pass w inp).1.lockId = 2
      then { s.p2 with pos := w } else s.p2) ∧
    ((s.drag_pass w inp).1.p3 =
      if (s.drag_pass w inp).1.isDragging = true ∧ (s.drag_pass w inp).1.lockId = 3
      then { s.p3 with pos := w } else s.p3) ∧
    (s.isDragging = true →
      (s.drag_pass w inp).1.isDragging = true ∧ (s.drag_pass w inp).1.lockId = s.lockId) ∧
    (∀ frames : List (vec2 × Input),
      (∀ f ∈ frames, f.2.mouseLeftDown = true ∧ f.2.mouseLeftReleased = false) →
      (s.drag_pass w inp).1.isDragging = true →
        ((s.drag_pass w inp).1.drag_frames frames).isDragging = true ∧
        ((s.drag_pass w inp).1.drag_frames frames).lockId = (s.drag_pass w inp).1.lockId) := by
  obtain ⟨h0, h1, h2, h3⟩ := hids
  have hnd : (s.points.map (fun p => p.id)).Nodup := by
    simp [Scene.points, h0, h1, h2, h3]
  obtain ⟨ha, hb, hc⟩ := drag_loop_exclusive w inp hrel
    { isDragging := s.isDragging, lockId := s.lockId } s.points hnd
  have e : ∀ x : ℤ, ((0 : ℤ) = x) = (x = 0) ∧ ((1 : ℤ) = x) = (x = 1) ∧
      ((2 : ℤ) = x) = (x = 2) ∧ ((3 : ℤ) = x) = (x = 3) :=
    fun x => ⟨propext eq_comm, propext eq_comm, propext eq_comm, propext eq_comm⟩
  refine ⟨ha, hb, ?_, ?_, ?_, ?_, fun hd => drag_pass_keeps_lock s w inp hrel hd,
    fun frames hf hd => drag_frames_keeps_lock frames _ (fun f hfm => (hf f hfm).2) hd⟩
  · simp only [Scene.drag_pass]
    rw [hc]; simp [Scene.points, h0, e]
  · simp only [Scene.drag_pass]
    rw [hc]; simp [Scene.points, h1, e]
  · simp only [Scene.drag_pass]
    rw [hc]; simp [Scene.points, h2, e]
  · simp only [Scene.drag_pass]
    rw [hc]; simp [Scene.points, h3, e]

/-- C6 at work: with `p0` and `p1` overlapping and the pointer inside both hit
circles, a frame with the button down locks `p0` alone and moves `p0` alone. -/
theorem drag_lock_exclusive_witness :
    (Scene.overlap.p0.id = 0 ∧ Scene.overlap.p1.id = 1 ∧ Scene.overlap.p2.id = 2 ∧
      Scene.overlap.p3.id = 3) ∧
    Input.leftDown.mouseLeftDown = true ∧ Input.leftDown.mouseLeftReleased = false ∧
    CheckCollisionPointCircle ⟨155, 400⟩ Scene.overlap.p0.pos 20 = true ∧
    CheckCollisionPointCircle ⟨155, 400⟩ Scene.overlap.p1.pos 20 = true ∧
    (Scene.overlap.drag_pass ⟨155, 400⟩ Input.leftDown).2.locked = [0] ∧
    (Scene.overlap.drag_pass ⟨155, 400⟩ Input.leftDown).2.locked.length ≤ 1 ∧
    (Scene.overlap.drag_pass ⟨155, 400⟩ Input.leftDown).2.printed.length ≤ 1 := by
  have h := drag_lock_exclusive Scene.overlap ⟨155, 400⟩ Input.leftDown ⟨rfl, rfl, rfl, rfl⟩
    rfl rfl
  refine ⟨⟨rfl, rfl, rfl, rfl⟩, rfl, rfl, ?_, ?_, ?_, h.1, h.2.1⟩
  · norm_num [CheckCollisionPointCircle, Scene.overlap, Scene.init, point.ctor]
  · norm_num [CheckCollisionPointCircle, Scene.overlap, Scene.init, point.ctor]
  · norm_num [Scene.drag_pass, drag_loop, drag_point, Scene.points, Scene.overlap, Scene.init,
      point.ctor, CheckCollisionPointCircle, Input.leftDown, Input.idle]

/-- An iteration of the drag loop in a frame with the button released and not down
unlocks and leaves the point alone. -/
theorem drag_point_release (w : vec2) (inp : Input) (l : DragLoop) (p : point)
    (hrel : inp.mouseLeftReleased = true) (hdown : inp.mouseLeftDown = false) :
    drag_point w inp l p =
      { st := { isDragging := false, lockId := -1 }, points := l.points ++ [p], log := l.log } := by
  simp [drag_point, hrel, hdown]

/-- The rest of the drag loop in a frame with the button released, once unlocked. -/
theorem fold_release (w : vec2) (inp : Input) (hrel : inp.mouseLeftReleased = true)
    (hdown : inp.mouseLeftDown = false) (ps : List point) (l : DragLoop)
    (hl : l.st = { isDragging := false, lockId := -1 }) :
    ps.foldl (drag_point w inp) l = { l with points := l.points ++ ps } := by
  induction ps generalizing l with
  | nil => simp
  | cons p ps ih =>
    rw [List.foldl_cons, drag_point_release w inp l p hrel hdown, ih _ rfl]
    simp [← hl]

/-- C7: in a frame in which the primary button is reported released and is not
down, for every pointer position and every prior drag state, after the drag
pass `isDragging` is false and `lockId` is `-1`, no position was overwritten
(nothing was printed, and `p0..p3` are what they were) and nothing was locked. -/
theorem release_unlocks (s : Scene) (w : vec2) (inp : Input)
    (hrel : inp.mouseLeftReleased = true) (hdown : inp.mouseLeftDown = false) :
    (s.drag_pass w inp).1.isDragging = false ∧
    (s.drag_pass w inp).1.lockId = -1 ∧
    (s.drag_pass w inp).2.printed = [] ∧
    (s.drag_pass w inp).2.locked = [] ∧
    (s.drag_pass w inp).1.p0 = s.p0 ∧ (s.drag_pass w inp).1.p1 = s.p1 ∧
    (s.drag_pass w inp).1.p2 = s.p2 ∧ (s.drag_pass w inp).1.p3 = s.p3 := by
  have h : drag_loop w inp { isDragging := s.isDragging, lockId := s.lockId } s.points =
      { st := { isDragging := false, lockId := -1 }, points := s.points
        log := { locked := [], printed := [] } } := by
    rw [drag_loop, Scene.points, List.foldl_cons, drag_point_release w inp _ _ hrel hdown,
      fold_release w inp hrel hdown _ _ rfl]
    simp
  simp only [Scene.drag_pass, h]
  simp [Scene.points]

/-- C7 at work: releasing while `p2` is being dragged, the pointer far from it. -/
theorem release_unlocks_witness :
    Input.leftReleased.mouseLeftReleased = true ∧ Input.leftReleased.mouseLeftDown = false ∧
    (({ Scene.overlap with isDragging := true, lockId := 2 }).drag_pass ⟨900, 900⟩
      Input.leftReleased).1.isDragging = false ∧
    (({ Scene.overlap with isDragging := true, lockId := 2 }).drag_pass ⟨900, 900⟩
      Input.leftReleased).1.lockId = -1 :=
  ⟨rfl, rfl,
    (release_unlocks { Scene.overlap with isDragging := true, lockId := 2 } ⟨900, 900⟩
      Input.leftReleased rfl rfl).1,
    (release_unlocks { Scene.overlap with isDragging := true, lockId := 2 } ⟨900, 900⟩
      Input.leftReleased rfl rfl).2.1⟩

/-! ### The reset buttons -/

/-- C8: whatever the state before, RESET POINTS leaves `p0..p3` at `(150, 400)`,
`(120, 200)`, `(480, 200)`, `(450, 400)`, the positions of the initial scene. -/
theorem reset_points_restores (s : Scene) (inp : Input) (isResetBall isResetCamera : Bool)
    (ids : ℤ × ℤ × ℤ × ℤ) (ballId : ℤ) (cRec0 : Rectangle) :
    ((s.reset_actions inp isResetBall true isResetCamera ids).p0.pos = ⟨150, 400⟩ ∧
     (s.reset_actions inp isResetBall true isResetCamera ids).p1.pos = ⟨120, 200⟩ ∧
     (s.reset_actions inp isResetBall true isResetCamera ids).p2.pos = ⟨480, 200⟩ ∧
     (s.reset_actions inp isResetBall true isResetCamera ids).p3.pos = ⟨450, 400⟩) ∧
    ((s.reset_actions inp isResetBall true isResetCamera ids).p0.pos =
        (Scene.init ballId cRec0).p0.pos ∧
     (s.reset_actions inp isResetBall true isResetCamera ids).p1.pos =
        (Scene.init ballId cRec0).p1.pos ∧
     (s.reset_actions inp isResetBall true isResetCamera ids).p2.pos =
        (Scene.init ballId cRec0).p2.pos ∧
     (s.reset_actions inp isResetBall true isResetCamera ids).p3.pos =
        (Scene.init ballId cRec0).p3.pos) := by
  cases isResetBall <;> cases isResetCamera <;>
    norm_num [Scene.reset_actions, Scene.init, point.ctor]

/-- C9: whatever the camera and the points before, RESET CAMERA leaves `zoom = 1` and
`target` equal to the position `p0` has at that moment: the reset position
`(150, 400)` when RESET POINTS fired in the same frame, otherwise the position
`p0` had before. -/
theorem reset_camera_targets_p0 (s : Scene) (inp : Input) (isResetBall isResetPoints : Bool)
    (ids : ℤ × ℤ × ℤ × ℤ) :
    (s.reset_actions inp isResetBall isResetPoints true ids).cam.zoom = 1 ∧
    (s.reset_actions inp isResetBall isResetPoints true ids).cam.target =
      (s.reset_actions inp isResetBall isResetPoints true ids).p0.pos ∧
    (s.reset_actions inp isResetBall isResetPoints true ids).p0.pos =
      (if isResetPoints then ⟨150, 400⟩ else s.p0.pos) := by
  cases isResetBall <;> cases isResetPoints <;>
    norm_num [Scene.reset_actions, point.ctor]

/-! ### The mouse step of the camera -/

/-- C10 (the code snaps to the screen position): one idle frame after construction
the camera has `offset = (47, 36)`; with the secondary button held and the
pointer at the screen centre `(470, 360)` the pointer's world position is
`(423, 324)`, outside all four edge rectangles, and `update` sets `target` to
`(470, 360)`, the screen position, not to the world position. -/
theorem snap_takes_screen_position :
    cam2d.afterIdleFrame.offset = ⟨47, 36⟩ ∧
    cam2d.afterIdleFrame.cRec = ⟨-47, -36, 940, 720⟩ ∧
    GetScreenToWorld2D Input.rightDownCentre.mousePos
      (cam2d.afterIdleFrame.update_keys Input.rightDownCentre) = ⟨423, 324⟩ ∧
    CheckCollisionPointRec ⟨423, 324⟩ (get_rec_y1 cam2d.afterIdleFrame.cRec) = false ∧
    CheckCollisionPointRec ⟨423, 324⟩ (get_rec_y2 cam2d.afterIdleFrame.cRec) = false ∧
    CheckCollisionPointRec ⟨423, 324⟩ (get_rec_x1 cam2d.afterIdleFrame.cRec) = false ∧
    CheckCollisionPointRec ⟨423, 324⟩ (get_rec_x2 cam2d.afterIdleFrame.cRec) = false ∧
    ((cam2d.afterIdleFrame.update_keys Input.rightDownCentre).update_mouse
      Input.rightDownCentre).target = ⟨470, 360⟩ ∧
    (cam2d.afterIdleFrame.update Input.rightDownCentre).target = ⟨470, 360⟩ := by
  have hc : cam2d.afterIdleFrame =
      { offset := ⟨47, 36⟩, target := ⟨0, 0⟩, rotation := 0, zoom := 1, cameraSpeed := 2
        cRec := ⟨-47, -36, 940, 720⟩ } := by
    norm_num [cam2d.afterIdleFrame, cam2d.update, cam2d.update_keys, cam2d.update_mouse,
      cam2d.update_offset, cam2d.update_zoom, cam2d.update_cRec, cam2d.get_mouse_dir,
      cam2d.ctor, Input.idle, GetScreenToWorld2D, vec2_length_sq, vec2_sub, vec2_scale]
  rw [hc]
  norm_num [cam2d.update, cam2d.update_keys, cam2d.update_mouse,
      cam2d.update_offset, cam2d.update_zoom, cam2d.update_cRec, cam2d.get_mouse_dir,
      Input.rightDownCentre, Input.idle, GetScreenToWorld2D, vec2_length_sq, vec2_sub,
      vec2_scale, CheckCollisionPointRec, get_rec_x1, get_rec_x2, get_rec_y1, get_rec_y2]

/-! ### The offset step of the camera -/

/-- Neither the keyboard pan nor the mouse step writes `offset`. -/
theorem offset_before_smoothing (c : cam2d) (inp : Input) :
    ((c.update_keys inp).update_mouse inp).offset = c.offset := by
  have hk : (c.update_keys inp).offset = c.offset := by
    simp only [cam2d.update_keys]; split_ifs <;> rfl
  rw [← hk]
  simp only [cam2d.update_mouse]
  split_ifs <;> rfl

/-- C11 fails as stated: for the fresh camera and an idle frame at 940 x 720 the
screen centre is at world `(470, 360)` and the target at `(0, 0)`; `update` leaves
`offset = (47, 36)`, while the old offset minus a tenth of
`screenCenterWorldPos - target` is `(-47, -36)`. -/
theorem offset_smoothing_sign :
    ((cam2d.ctor ⟨0, 0, 0, 0⟩).update Input.idle).offset = ⟨47, 36⟩ ∧
    vec2_sub (cam2d.ctor ⟨0, 0, 0, 0⟩).offset
      (vec2_scale
        (vec2_sub
          (GetScreenToWorld2D
            { x := (Input.idle.screenWidth : ℚ) / 2, y := (Input.idle.screenHeight : ℚ) / 2 }
            (((cam2d.ctor ⟨0, 0, 0, 0⟩).update_keys Input.idle).update_mouse Input.idle))
          (((cam2d.ctor ⟨0, 0, 0, 0⟩).update_keys Input.idle).update_mouse Input.idle).target)
        (1 / 10)) = ⟨-47, -36⟩ ∧
    ((cam2d.ctor ⟨0, 0, 0, 0⟩).update Input.idle).offset ≠
      vec2_sub (cam2d.ctor ⟨0, 0, 0, 0⟩).offset
        (vec2_scale
          (vec2_sub
            (GetScreenToWorld2D
              { x := (Input.idle.screenWidth : ℚ) / 2, y := (Input.idle.screenHeight : ℚ) / 2 }
              (((cam2d.ctor ⟨0, 0, 0, 0⟩).update_keys Input.idle).update_mouse Input.idle))
            (((cam2d.ctor ⟨0, 0, 0, 0⟩).update_keys Input.idle).update_mouse Input.idle).target)
          (1 / 10)) := by
  norm_num [cam2d.update, cam2d.update_keys, cam2d.update_mouse,
    cam2d.update_offset, cam2d.update_zoom, cam2d.update_cRec, cam2d.get_mouse_dir,
    cam2d.ctor, Input.idle, GetScreenToWorld2D, vec2_length_sq, vec2_sub, vec2_scale]

/-- The offset that `update` leaves, in terms of the camera after the keyboard and
mouse steps: only the offset step writes `offset`. -/
theorem update_offset_eq (c : cam2d) (inp : Input) :
    (c.update inp).offset =
      vec2_sub c.offset
        (vec2_scale
          (vec2_sub ((c.update_keys inp).update_mouse inp).target
            (GetScreenToWorld2D
              { x := (inp.screenWidth : ℚ) / 2, y := (inp.screenHeight : ℚ) / 2 }
              ((c.update_keys inp).update_mouse inp)))
          (1 / 10)) := by
  have hz : ∀ d : cam2d, (d.update_zoom inp).offset = d.offset := by
    intro d
    simp only [cam2d.update_zoom]
    split_ifs <;> rfl
  have h : (c.update inp).offset =
      (((c.update_keys inp).update_mouse inp).update_offset inp).offset := by
    simp only [cam2d.update, cam2d.update_cRec, hz]
  rw [h, cam2d.update_offset, offset_before_smoothing]

/-- C11 as amended: for every camera and frame, the offset after `update` is the old
offset minus a tenth of `target - screenCenterWorldPos`, where the target is
the one left by the keyboard and mouse steps and `screenCenterWorldPos` is the
world position of `(screenWidth/2, screenHeight/2)` under the camera at that
point, before the offset changes. -/
theorem offset_smoothing (c : cam2d) (inp : Input) :
    (c.update inp).offset =
      vec2_sub c.offset
        (vec2_scale
          (vec2_sub ((c.update_keys inp).update_mouse inp).target
            (GetScreenToWorld2D
              { x := (inp.screenWidth : ℚ) / 2, y := (inp.screenHeight : ℚ) / 2 }
              ((c.update_keys inp).update_mouse inp)))
          (1 / 10)) :=
  update_offset_eq c inp

/-- What the offset step does to the offset itself, when `zoom` is not `0`: it moves
the offset towards the screen centre by `1 / (10 * zoom)` of the gap, so that
the target drifts to the middle of the screen. -/
theorem offset_moves_to_centre (c : cam2d) (inp : Input)
    (hz : ((c.update_keys inp).update_mouse inp).zoom ≠ 0) :
    (c.update inp).offset =
      { x := c.offset.x -
          (c.offset.x - (inp.screenWidth : ℚ) / 2) /
            (10 * ((c.update_keys inp).update_mouse inp).zoom)
        y := c.offset.y -
          (c.offset.y - (inp.screenHeight : ℚ) / 2) /
            (10 * ((c.update_keys inp).update_mouse inp).zoom) } := by
  rw [update_offset_eq]
  simp only [vec2_sub, vec2_scale, GetScreenToWorld2D, offset_before_smoothing, vec2.mk.injEq]
  constructor <;> field_simp <;> ring

/-! ### The convex hull -/

end Bezier
